import Mathlib

/-!
# gofish / package redfish: RouteSetEntry and Signature

A shallow embedding of `redfish/routesetentry.go` and `redfish/signature.go`.

* Pointer receivers become explicit state passing: a method returns the new
  receiver together with its Go return value.
* A Go `(T, error)` return is a pair of options, so that "nil resource" and
  "nil error" can be stated separately.
* Side effects (requests handed to the transport) are returned as a list.
* The channel of `ListReferenced...` is the list of records in the order in
  which the drain loop receives them; that order is picked by a `Schedule`.
* The failure map is written by two goroutines without synchronisation. A
  `Schedule` also says whether the two unordered stores run one after the
  other, and in which order, or at the same time; in the latter case the Go
  runtime ends the process ("fatal error: concurrent map writes") and the
  call does not return (`Run.fatal`).
* `encoding/json` is the Go standard library, not code of this repository:
  it is a parameter (`JSON`).
* Package `common` (Entity, Client, CollectList, CollectionError) belongs to
  the repository but its source is not available; those parts are modelled
  from the specification and marked as such.
-/

namespace Redfish

/-! ## Basic data -/

/-- A Go `error` value (non-nil). A nil error is `none : Option GoError`. -/
structure GoError where
  msg : String
deriving DecidableEq, Repr

/-- A Go `[]byte`. -/
abbrev Bytes := List UInt8

/-- A field value as seen through `reflect`. -/
inductive Value where
  | int (n : Int)
  | bool (b : Bool)
  | string (s : String)
  | bytes (b : Bytes)
  | entity (address identifier typeTag : String)
deriving DecidableEq, Repr

/-- One struct field as seen through `reflect`: its Go name, its `json` tag
(empty when the field has none) and its value. -/
structure Field where
  name : String
  tag : String
  value : Value
deriving DecidableEq, Repr

/-- The declared wire name of a field: the `json` tag when there is one, the
Go field name otherwise. -/
def Field.wireName (f : Field) : String :=
  if f.tag = "" then f.name else f.tag

/-- A struct as seen through `reflect.Value`: its fields in declaration order. -/
abbrev StructValue := List Field

/-- The field called `name`, as `reflect.Value.FieldByName` finds it. -/
def StructValue.FieldByName (v : StructValue) (name : String) : Option Field :=
  v.find? (fun f => f.name == name)

/-- The body of a PATCH request: a JSON object, as key/value pairs. -/
abbrev Payload := List (String × Value)

/-- A PATCH request handed to the transport. -/
structure PatchRequest where
  uri : String
  payload : Payload
deriving DecidableEq, Repr

/-- Modelled from the spec: `common.Client`, the transport capability, whose
declaration is not available. The spec gives it as
"get(uri) -> response-with-body | transport error" and
"patch(uri, JSON object) -> success | transport error". -/
structure Client where
  Get : String → Except GoError Bytes
  Patch : String → Payload → Option GoError

/-- Modelled from the spec: `common.Entity`, whose declaration is not
available: "a service-assigned address (its own canonical URI), an opaque
identifier, a type tag, and a shared (not owned) reference to the
transport/session capability". The reference is nil until `SetClient`. -/
structure Entity where
  address : String := ""
  identifier : String := ""
  typeTag : String := ""
  client : Option Client := none

/-- Modelled from the spec: `Entity.SetClient`, whose source is not
available: "attach the shared transport reference". -/
def Entity.SetClient (e : Entity) (c : Client) : Entity :=
  { e with client := some c }

/-- What a call that goes through an entity's client comes back with: a nil
error, a non-nil error, or a nil-pointer dereference when no client was
ever attached. -/
inductive Outcome where
  | success
  | failure (err : GoError)
  | nilClient
deriving DecidableEq, Repr

/-- Modelled from the spec: `Entity.Patch`, whose source is not available:
"submit it as a partial-update request addressed to the resource's own
canonical URI"; "the transport's success/failure response is propagated
verbatim". -/
def Entity.Patch (e : Entity) (uri : String) (payload : Payload) : Outcome :=
  match e.client with
  | none => Outcome.nilClient
  | some c =>
    match c.Patch uri payload with
    | none => Outcome.success
    | some err => Outcome.failure err

/-- Modelled from the spec: the Diff Engine inside `Entity.Update`, whose
source is not available: "for each field name in the type's mutable-field
set, compare the value on the live instance against the corresponding value
on the freshly-decoded original instance using value equality. Any field
whose value differs is added to the patch mapping under its declared wire
name with the live instance's current value." -/
def computePatch (originalEntity updatedEntity : StructValue)
    (allowedUpdates : List String) : Payload :=
  allowedUpdates.filterMap fun name =>
    match originalEntity.FieldByName name, updatedEntity.FieldByName name with
    | some o, some u => if o.value = u.value then none else some (u.wireName, u.value)
    | _, _ => none

/-- Modelled from the spec: `Entity.Update`, whose source is not available:
"if the patch mapping is empty, return success immediately with no network
call"; "otherwise, serialize the patch mapping as a JSON object and submit
it as a partial-update request addressed to the resource's own canonical
URI". The second component lists the requests handed to `Entity.Patch`. -/
def Entity.Update (e : Entity) (originalEntity updatedEntity : StructValue)
    (allowedUpdates : List String) : Outcome × List PatchRequest :=
  let payload := computePatch originalEntity updatedEntity allowedUpdates
  if payload.isEmpty then
    (Outcome.success, [])
  else
    (e.Patch e.address payload, [⟨e.address, payload⟩])

/-! ## RouteSetEntry -/

/-- The Go struct `RouteSetEntry`; `common.Entity` is embedded. -/
structure RouteSetEntry extends Entity where
  ODataContext : String := ""
  ODataEtag : String := ""
  ODataType : String := ""
  Description : String := ""
  EgressIdentifier : Int := 0
  HopCount : Int := 0
  OEM : Bytes := []
  VCAction : Int := 0
  Valid : Bool := false
  rawData : Bytes := []

/-- The Go struct `Signature`; `common.Entity` is embedded. -/
structure Signature extends Entity where
  ODataContext : String := ""
  ODataEtag : String := ""
  ODataType : String := ""
  Description : String := ""
  OEM : Bytes := []
  SignatureString : String := ""
  SignatureType : String := ""
  SignatureTypeRegistry : String := ""
  UefiSignatureOwner : String := ""

/-- The package `encoding/json` of the Go standard library, as far as the two
files use it. `next` is `json.Decoder` reading the next JSON value off a
response body; `routeSetEntry` is `json.Unmarshal(b, &t)` on the zero-valued
`temp` of `UnmarshalJSON`; `signature` is the default decoding of a
`Signature`. -/
structure JSON where
  next : Bytes → Except GoError Bytes
  routeSetEntry : Bytes → Except GoError RouteSetEntry
  signature : Bytes → Except GoError Signature

/-- The value `reflect.ValueOf(p).Elem()` for a `*RouteSetEntry`. -/
def RouteSetEntry.reflect (r : RouteSetEntry) : StructValue :=
  [ ⟨"Entity", "", Value.entity r.address r.identifier r.typeTag⟩,
    ⟨"ODataContext", "@odata.context", Value.string r.ODataContext⟩,
    ⟨"ODataEtag", "@odata.etag", Value.string r.ODataEtag⟩,
    ⟨"ODataType", "@odata.type", Value.string r.ODataType⟩,
    ⟨"Description", "", Value.string r.Description⟩,
    ⟨"EgressIdentifier", "", Value.int r.EgressIdentifier⟩,
    ⟨"HopCount", "", Value.int r.HopCount⟩,
    ⟨"OEM", "Oem", Value.bytes r.OEM⟩,
    ⟨"VCAction", "", Value.int r.VCAction⟩,
    ⟨"Valid", "", Value.bool r.Valid⟩,
    ⟨"rawData", "", Value.bytes r.rawData⟩ ]

/-- The method `RouteSetEntry.UnmarshalJSON`: the receiver after the call and the
returned error. On a decoding error the receiver is left as it was. -/
def RouteSetEntry.UnmarshalJSON (J : JSON) (routesetentry : RouteSetEntry) (b : Bytes) :
    RouteSetEntry × Option GoError :=
  match J.routeSetEntry b with
  | .error err => (routesetentry, some err)
  | .ok t => ({ t with rawData := b }, none)

/-- The list `readWriteFields` of `RouteSetEntry.Update`. -/
def RouteSetEntry.readWriteFields : List String :=
  [ "EgressIdentifier",
    "HopCount",
    "VCAction",
    "Valid" ]

/-- The method `RouteSetEntry.Update`: the returned outcome and the PATCH requests
issued. The error of `original.UnmarshalJSON` is not looked at. -/
def RouteSetEntry.Update (J : JSON) (routesetentry : RouteSetEntry) :
    Outcome × List PatchRequest :=
  let original : RouteSetEntry := {}
  let original := (original.UnmarshalJSON J routesetentry.rawData).1
  let originalElement := original.reflect
  let currentElement := routesetentry.reflect
  routesetentry.toEntity.Update originalElement currentElement RouteSetEntry.readWriteFields

/-- The call `json.NewDecoder(resp.Body).Decode(&routesetentry)`: the decoder reads
the next JSON value off the body and hands its bytes to `UnmarshalJSON`. -/
def RouteSetEntry.Decode (J : JSON) (routesetentry : RouteSetEntry) (body : Bytes) :
    RouteSetEntry × Option GoError :=
  match J.next body with
  | .error err => (routesetentry, some err)
  | .ok b => routesetentry.UnmarshalJSON J b

/-- The function `GetRouteSetEntry`: the returned pointer (nil is `none`) and error. -/
def GetRouteSetEntry (J : JSON) (c : Client) (uri : String) :
    Option RouteSetEntry × Option GoError :=
  match c.Get uri with
  | .error err => (none, some err)
  | .ok body =>
    let routesetentry : RouteSetEntry := {}
    match routesetentry.Decode J body with
    | (_, some err) => (none, some err)
    | (routesetentry, none) =>
      (some { routesetentry with toEntity := routesetentry.toEntity.SetClient c }, none)

/-! ## Signature -/

/-- The call `json.NewDecoder(resp.Body).Decode(&signature)`; `Signature` has no
`UnmarshalJSON` of its own. -/
def Signature.Decode (J : JSON) (signature : Signature) (body : Bytes) :
    Signature × Option GoError :=
  match J.next body with
  | .error err => (signature, some err)
  | .ok b =>
    match J.signature b with
    | .error err => (signature, some err)
    | .ok t => (t, none)

/-- The function `GetSignature`: the returned pointer (nil is `none`) and error. -/
def GetSignature (J : JSON) (c : Client) (uri : String) :
    Option Signature × Option GoError :=
  match c.Get uri with
  | .error err => (none, some err)
  | .ok body =>
    let signature : Signature := {}
    match signature.Decode J body with
    | (_, some err) => (none, some err)
    | (signature, none) =>
      (some { signature with toEntity := signature.toEntity.SetClient c }, none)

/-! ## Collections -/

/-- A Go `map[string]error`: key/value pairs with pairwise distinct keys. -/
abbrev Failures := List (String × GoError)

/-- The assignment `m[k] = v`. -/
def Failures.set (m : Failures) (k : String) (v : GoError) : Failures :=
  (k, v) :: m.filter (fun p => p.1 != k)

/-- The read `m[k]`. -/
def Failures.get? (m : Failures) (k : String) : Option GoError :=
  (m.find? (fun p => p.1 == k)).map (·.2)

/-- Modelled from the spec: `common.CollectionError`, whose declaration is not
available: "a mapping from member address to the error encountered
fetching/decoding that member". -/
structure CollectionError where
  Failures : Failures
deriving DecidableEq, Repr

/-- Modelled from the spec: `common.NewCollectionError`, whose source is not
available: "created fresh per fan-out call". -/
def NewCollectionError : CollectionError := ⟨[]⟩

/-- Modelled from the spec: `CollectionError.Empty`, whose source is not
available: "empty holds iff the mapping has zero entries". -/
def CollectionError.Empty (e : CollectionError) : Bool :=
  e.Failures.length == 0

/-- The local type `GetResult` of the two `ListReferenced...` functions. -/
structure GetResult (α : Type) where
  Item : Option α
  Link : String
  Error : Option GoError

/-- Modelled from the spec: what the Collection Lister makes of a collection
reference: "an ordered sequence of member addresses"; "listing itself may
fail midway", so an enumeration error may come with the addresses
enumerated before it. -/
structure Listing where
  members : List String
  err : Option GoError

/-- Modelled from the spec: the Collection Lister, an external collaborator:
"list(collectionReference) -> ordered sequence of member addresses | error". -/
abbrev Lister := Client → String → Listing

/-- Modelled from the spec: `common.CollectList`, whose source is not
available: "for every member address, start an independent concurrent fetch
task"; "once every task has produced exactly one result record, the
operation concludes". It returns the records its tasks send, in the order of
the member addresses, and the listing error. -/
def CollectList {α : Type} (lister : Lister) (get : String → GetResult α) (c : Client)
    (link : String) : List (GetResult α) × Option GoError :=
  let listing := lister c link
  (listing.members.map get, listing.err)

/-- The order in which sent records are received: at each step the record at
position `k % pending` of those not yet received comes next. Every
completion order arises from some list of picks. -/
def interleave {α : Type} : List Nat → List α → List α
  | [], pending => pending
  | k :: ks, pending =>
    match pending with
    | [] => []
    | x :: xs =>
      let i := k % (xs.length + 1)
      ((x :: xs).drop i).take 1 ++ interleave ks ((x :: xs).eraseIdx i)

/-- How one run of a `ListReferenced...` call is scheduled. `order` picks the
order in which the records are received. The goroutine stores the listing
error once `CollectList` has returned, which is after the last record was
received but not ordered with the drain loop handling that record, and
nothing synchronises the two stores into the map. `overlap` says that they
run at the same time; if they do not, `listingFirst` says that the
goroutine's store comes first. -/
structure Schedule where
  order : List Nat
  listingFirst : Bool
  overlap : Bool

/-- The body of the loop `for r := range ch`, run over the records `ch`. -/
def drain {α : Type} : List (GetResult α) → List (Option α) → CollectionError →
    List (Option α) × CollectionError
  | [], result, collectionError => (result, collectionError)
  | r :: ch, result, collectionError =>
    match r.Error with
    | some err => drain ch result ⟨collectionError.Failures.set r.Link err⟩
    | none => drain ch (result ++ [r.Item]) collectionError

/-- The goroutine statement `if err != nil { collectionError.Failures[link] = err }`. -/
def recordListing (link : String) (err : Option GoError) (collectionError : CollectionError) :
    CollectionError :=
  match err with
  | some err => ⟨collectionError.Failures.set link err⟩
  | none => collectionError

/-- The goroutine and the drain loop over the received records when their
stores into the map run one after the other, in either order. -/
def serialFanIn {α : Type} (link : String) (err : Option GoError) (ch : List (GetResult α))
    (listingFirst : Bool) : List (Option α) × CollectionError :=
  if listingFirst then
    let (result, collectionError) := drain (ch.take (ch.length - 1)) [] NewCollectionError
    drain (ch.drop (ch.length - 1)) result (recordListing link err collectionError)
  else
    let (result, collectionError) := drain ch [] NewCollectionError
    (result, recordListing link err collectionError)

/-- Whether two goroutines write the failure map at the same time: the goroutine
stores a listing error (`err != nil`), the drain loop stores the error of the
last record received (`r.Error != nil`), and the two stores overlap. Stores
for earlier records are over before the last record is received, hence
before `CollectList` returns. -/
def concurrentWrites {α : Type} (err : Option GoError) (ch : List (GetResult α))
    (overlap : Bool) : Bool :=
  overlap && err.isSome &&
    (match ch.getLast? with
     | some r => r.Error.isSome
     | none => false)

/-- The goroutine and the drain loop run together over the received records:
the sequence and the map at the end of the fan-out, or `none` when the Go
runtime meets concurrent map writes and ends the process. -/
def fanIn {α : Type} (link : String) (err : Option GoError) (ch : List (GetResult α))
    (listingFirst overlap : Bool) : Option (List (Option α) × CollectionError) :=
  if concurrentWrites err ch overlap then
    none
  else
    some (serialFanIn link err ch listingFirst)

/-- A call observed on the collaborators of a `ListReferenced...` call. -/
inductive Call where
  | list (link : String)
  | get (uri : String)
deriving DecidableEq, Repr

/-- What a `ListReferenced...` call returns, and the calls it made. -/
structure ListResult (α : Type) where
  result : List (Option α)
  err : Option CollectionError
  calls : List Call

/-- How a `ListReferenced...` call ends: it returns, or the Go runtime ends the
process with "fatal error: concurrent map writes". -/
inductive Run (α : Type) where
  | returned (out : ListResult α)
  | fatal

/-- The function `ListReferencedRouteSetEntrys`. -/
def ListReferencedRouteSetEntrys (J : JSON) (lister : Lister) (c : Client) (link : String)
    (s : Schedule) : Run RouteSetEntry :=
  let result : List (Option RouteSetEntry) := []
  if link == "" then
    Run.returned ⟨result, none, []⟩
  else
    let get := fun (link : String) =>
      let (routesetentry, err) := GetRouteSetEntry J c link
      GetResult.mk routesetentry link err
    let (sent, err) := CollectList lister get c link
    let ch := interleave s.order sent
    let calls := Call.list link :: ch.map (fun r => Call.get r.Link)
    match fanIn link err ch s.listingFirst s.overlap with
    | none => Run.fatal
    | some (result, collectionError) =>
      if collectionError.Empty then
        Run.returned ⟨result, none, calls⟩
      else
        Run.returned ⟨result, some collectionError, calls⟩

/-- The function `ListReferencedSignatures`. -/
def ListReferencedSignatures (J : JSON) (lister : Lister) (c : Client) (link : String)
    (s : Schedule) : Run Signature :=
  let result : List (Option Signature) := []
  if link == "" then
    Run.returned ⟨result, none, []⟩
  else
    let get := fun (link : String) =>
      let (signature, err) := GetSignature J c link
      GetResult.mk signature link err
    let (sent, err) := CollectList lister get c link
    let ch := interleave s.order sent
    let calls := Call.list link :: ch.map (fun r => Call.get r.Link)
    match fanIn link err ch s.listingFirst s.overlap with
    | none => Run.fatal
    | some (result, collectionError) =>
      if collectionError.Empty then
        Run.returned ⟨result, none, calls⟩
      else
        Run.returned ⟨result, some collectionError, calls⟩

/-! ## Definitions used to state and prove the properties -/

/-- A stand-in codec: empty input is an error, as it is for `encoding/json`
("unexpected end of JSON input"); otherwise the first byte gives HopCount. -/
def sampleJSON : JSON where
  next := fun b => if b.isEmpty then .error ⟨"EOF"⟩ else .ok b
  routeSetEntry := fun b =>
    match b with
    | [] => .error ⟨"unexpected end of JSON input"⟩
    | x :: _ => .ok { address := "/redfish/v1/RouteSet/1", HopCount := x.toNat }
  signature := fun b =>
    match b with
    | [] => .error ⟨"unexpected end of JSON input"⟩
    | _ :: _ => .ok { address := "/redfish/v1/Signatures/1" }

/-- A stand-in transport: `/bad` cannot be fetched, `/empty` has an empty body,
every other address has a one-byte body; every PATCH succeeds. -/
def sampleClient : Client where
  Get := fun uri =>
    if uri = "/bad" then .error ⟨"timeout"⟩
    else if uri = "/worse" then .error ⟨"refused"⟩
    else if uri = "/empty" then .ok []
    else .ok [7]
  Patch := fun _ _ => none

/-- The value of the field called `name`. -/
def RouteSetEntry.field (r : RouteSetEntry) (name : String) : Option Value :=
  (r.reflect.FieldByName name).map (·.value)

/-- A decoded entry: what `sampleJSON` makes of the one-byte snapshot `[7]`. -/
def sampleDecoded : RouteSetEntry :=
  { address := "/redfish/v1/RouteSet/1", HopCount := 7, rawData := [7] }

/-- The decoded entry as `GetRouteSetEntry` hands it out, with the description
edited by the caller. -/
def sampleLive : RouteSetEntry :=
  { sampleDecoded with client := some sampleClient, Description := "edited" }

/-- The sample entry after the caller set HopCount to 9 and edited the
description. -/
def sampleHopChanged : RouteSetEntry :=
  { sampleLive with HopCount := 9 }

/-- The keys of a map. -/
def Failures.keys (m : Failures) : List String := m.map (·.1)

/-- A sequence of assignments `m[k] = v`, carried out from the left. -/
def Failures.assign (m : Failures) : List (String × GoError) → Failures
  | [] => m
  | p :: ps => Failures.assign (m.set p.1 p.2) ps

/-- The assignments to the failure map that the drain loop makes for the
records `ch`, in order. -/
def writes {α : Type} (ch : List (GetResult α)) : List (String × GoError) :=
  ch.filterMap (fun r => r.Error.map (fun e => (r.Link, e)))

/-- The resources the drain loop appends for the records `ch`, in order. -/
def items {α : Type} (ch : List (GetResult α)) : List (Option α) :=
  (ch.filter (fun r => r.Error.isNone)).map (·.Item)

/-- The assignment the goroutine makes for the listing error. -/
def listingWrite (link : String) (err : Option GoError) : List (String × GoError) :=
  match err with
  | some e => [(link, e)]
  | none => []

/-- All assignments to the failure map during one fan-out, in the order in which
they are carried out. -/
def fanWrites {α : Type} (link : String) (err : Option GoError) (ch : List (GetResult α))
    (listingFirst : Bool) : List (String × GoError) :=
  if listingFirst then
    writes (ch.take (ch.length - 1)) ++ (listingWrite link err ++ writes (ch.drop (ch.length - 1)))
  else
    writes ch ++ listingWrite link err

/-- The record that the `get` closure of a `ListReferenced...` function sends for
a member address, `G` being the single-resource fetch. -/
def record {α : Type} (G : String → Option α × Option GoError) (link : String) : GetResult α :=
  ⟨(G link).1, link, (G link).2⟩

/-- What the two `ListReferenced...` functions return after the guard on the
empty reference when the fan-out ends, with the fetch function and the
listing made explicit. -/
def resolved {α : Type} (G : String → Option α × Option GoError) (listing : Listing)
    (link : String) (s : Schedule) : ListResult α :=
  let ch := interleave s.order (listing.members.map (record G))
  let out := serialFanIn link listing.err ch s.listingFirst
  let calls := Call.list link :: ch.map (fun r => Call.get r.Link)
  if out.2.Empty then
    ⟨out.1, none, calls⟩
  else
    ⟨out.1, some out.2, calls⟩

/-- The part of the two `ListReferenced...` functions after the guard on the
empty reference, with the fetch function and the listing made explicit. -/
def resolveCollection {α : Type} (G : String → Option α × Option GoError) (listing : Listing)
    (link : String) (s : Schedule) : Run α :=
  let ch := interleave s.order (listing.members.map (record G))
  let calls := Call.list link :: ch.map (fun r => Call.get r.Link)
  match fanIn link listing.err ch s.listingFirst s.overlap with
  | none => Run.fatal
  | some (result, collectionError) =>
    if collectionError.Empty then
      Run.returned ⟨result, none, calls⟩
    else
      Run.returned ⟨result, some collectionError, calls⟩

/-- The call returns, and what it returns satisfies `P`. -/
def Run.Returns {α : Type} (run : Run α) (P : ListResult α → Prop) : Prop :=
  ∃ out, run = Run.returned out ∧ P out

/-- The failure map a `ListReferenced...` call returns; a nil error stands for
the empty map. -/
def ListResult.failures {α : Type} (out : ListResult α) : Failures :=
  match out.err with
  | some ce => ce.Failures
  | none => []

/-- The records received in one run. -/
def received {α : Type} (G : String → Option α × Option GoError) (listing : Listing)
    (s : Schedule) : List (GetResult α) :=
  interleave s.order (listing.members.map (record G))

/-- The failure map at the end of the fan-out of one run. -/
def finalFailures {α : Type} (G : String → Option α × Option GoError) (listing : Listing)
    (link : String) (s : Schedule) : Failures :=
  Failures.assign [] (fanWrites link listing.err (received G listing s) s.listingFirst)

/-- A stand-in Collection Lister. `/five` has five members; `/dup` lists one
failing member twice; listing `/bad` fails after the member `/bad`, whose
address is the collection reference itself; listing `/broken` fails after two
members. -/
def sampleLister : Lister := fun _ link =>
  if link = "/five" then ⟨["/a", "/bad", "/b", "/empty", "/c"], none⟩
  else if link = "/dup" then ⟨["/bad", "/bad"], none⟩
  else if link = "/bad" then ⟨["/bad"], some ⟨"listing"⟩⟩
  else if link = "/broken" then ⟨["/a", "/worse"], some ⟨"listing"⟩⟩
  else ⟨[], none⟩

/-- What C10 says of one fetch function: `get` is the transport call, `decode`
the decoding of a body into a zero-valued resource, `attach` the attaching
of the client, `out` what the fetch function returned. -/
def FetchContract {α : Type} (get : Except GoError Bytes)
    (decode : Bytes → α × Option GoError) (attach : α → α)
    (out : Option α × Option GoError) : Prop :=
  (∀ err, get = .error err → out = (none, some err)) ∧
  (∀ body err, get = .ok body → (decode body).2 = some err → out = (none, some err)) ∧
  (∀ body, get = .ok body → (decode body).2 = none →
      out = (some (attach (decode body).1), none)) ∧
  ((out.1.isSome ∧ out.2 = none) ∨ (out.1 = none ∧ out.2.isSome))

/-- What C6 says of one run over a listing that succeeded: `G` is the fetch of
one member, `members` the listed addresses, `out` what was returned. -/
def AggregatesAll {α : Type} (G : String → Option α × Option GoError)
    (members : List String) (out : ListResult α) : Prop :=
  -- the resources of the members that succeeded, one per such member
  out.result.Perm ((members.filter (fun m => (G m).2.isNone)).map (fun m => (G m).1)) ∧
  (∀ x ∈ out.result, x.isSome) ∧
  out.result.length = (members.filter (fun m => (G m).2.isNone)).length ∧
  -- one entry for a failing member, under its address, with its error
  (∀ m ∈ members, ∀ e, (G m).2 = some e →
      out.failures.get? m = some e ∧ ∃! p, p ∈ out.failures ∧ p.1 = m) ∧
  -- no other entry
  (∀ p ∈ out.failures, p.1 ∈ members ∧ (G p.1).2 = some p.2) ∧
  out.failures.length = ((members.filter (fun m => (G m).2.isSome)).dedup).length ∧
  -- no failing fast: every member is fetched
  (∀ m ∈ members, Call.get m ∈ out.calls)

/-- What C7 says of one run: resources and failure entries add up to the number
of members. -/
def CountsAddUp {α : Type} (members : List String) (out : ListResult α) : Prop :=
  out.result.length + out.failures.length = members.length

/-- What C8 says of one run: `ce` is the CollectionError at the end of the
fan-out. -/
def NilErrorIffNoFailure {α : Type} (G : String → Option α × Option GoError)
    (listing : Listing) (ce : CollectionError) (out : ListResult α) : Prop :=
  (out.err = none ↔ ce.Failures = []) ∧
  (ce.Failures = [] ↔ listing.err = none ∧ ∀ m ∈ listing.members, (G m).2 = none) ∧
  (ce.Failures ≠ [] → out.err = some ce) ∧
  out.result.Perm
    ((listing.members.filter (fun m => (G m).2.isNone)).map (fun m => (G m).1)) ∧
  (∀ m ∈ listing.members, (G m).2 ≠ none → out.err ≠ none)

/-- What C8 says of one run once the goroutine's store is taken into account: if
the fan-out ends, the call returns and `NilErrorIffNoFailure` holds of the map
at the end of the fan-out; the fan-out does not end only when the goroutine
stores a listing error while the drain loop stores the error of the last
record received, and then the process is ended by the runtime. -/
def FanOutEnd {α : Type} (G : String → Option α × Option GoError) (listing : Listing)
    (link : String) (s : Schedule) (run : Run α) : Prop :=
  (match fanIn link listing.err (received G listing s) s.listingFirst s.overlap with
    | some ending => run.Returns (NilErrorIffNoFailure G listing ending.2)
    | none => run = Run.fatal) ∧
  (s.overlap = false →
    fanIn link listing.err (received G listing s) s.listingFirst s.overlap
      = some (serialFanIn link listing.err (received G listing s) s.listingFirst)) ∧
  (fanIn link listing.err (received G listing s) s.listingFirst s.overlap = none ↔
    s.overlap = true ∧ listing.err ≠ none ∧
      ∃ r, (received G listing s).getLast? = some r ∧ r.Error ≠ none)

/-- What C9 says of one run whose listing failed with `e`: the returned error is
non-nil, holds `e` under the collection reference and every member failure
under the address of its member. -/
def ListingErrorRecorded {α : Type} (G : String → Option α × Option GoError)
    (members : List String) (link : String) (e : GoError) (out : ListResult α) : Prop :=
  ∃ ce, out.err = some ce ∧ ce.Failures.get? link = some e ∧
    ∀ m ∈ members, ∀ e1, (G m).2 = some e1 → ce.Failures.get? m = some e1

/-! # Theorems -/

/-! ## Update -/

theorem unmarshal_ok {J : JSON} {recv decoded : RouteSetEntry} {b : Bytes}
    (h : recv.UnmarshalJSON J b = (decoded, none)) :
    ∀ other : RouteSetEntry, other.UnmarshalJSON J b = (decoded, none) := by
  intro other
  unfold RouteSetEntry.UnmarshalJSON at h ⊢
  cases hj : J.routeSetEntry b with
  | error e => simp [hj] at h
  | ok t => simp [hj] at h ⊢; exact h

theorem unmarshal_rawData {J : JSON} {recv decoded : RouteSetEntry} {b : Bytes}
    (h : recv.UnmarshalJSON J b = (decoded, none)) : decoded.rawData = b := by
  unfold RouteSetEntry.UnmarshalJSON at h
  cases hj : J.routeSetEntry b with
  | error e => simp [hj] at h
  | ok t => simp [hj] at h; rw [← h]

theorem update_eq_of_decoded {J : JSON} {recv decoded live : RouteSetEntry} {b : Bytes}
    (h : recv.UnmarshalJSON J b = (decoded, none)) (hraw : live.rawData = b) :
    live.Update J = live.toEntity.Update decoded.reflect live.reflect
      RouteSetEntry.readWriteFields := by
  unfold RouteSetEntry.Update
  simp only [hraw, unmarshal_ok h]

/-- C1. A RouteSetEntry decoded from a server response whose mutable fields
EgressIdentifier, HopCount, VCAction and Valid still have their decoded values:
Update issues no PATCH request and returns success. -/
theorem C1_update_unchanged_is_noop (J : JSON) (recv decoded live : RouteSetEntry) (b : Bytes)
    (hdec : recv.UnmarshalJSON J b = (decoded, none))
    (hraw : live.rawData = b)
    (h1 : live.EgressIdentifier = decoded.EgressIdentifier)
    (h2 : live.HopCount = decoded.HopCount)
    (h3 : live.VCAction = decoded.VCAction)
    (h4 : live.Valid = decoded.Valid) :
    live.Update J = (Outcome.success, []) := by
  rw [update_eq_of_decoded hdec hraw]
  simp [Entity.Update, computePatch, RouteSetEntry.readWriteFields, RouteSetEntry.reflect,
    StructValue.FieldByName, h1, h2, h3, h4]

theorem sample_unmarshal :
    ({} : RouteSetEntry).UnmarshalJSON sampleJSON [7] = (sampleDecoded, none) := by
  rfl

/-- C1 at the sample entry: the description was edited, no mutable field was. -/
theorem C1_update_unchanged_is_noop_witness :
    sampleLive.Update sampleJSON = (Outcome.success, []) :=
  C1_update_unchanged_is_noop sampleJSON {} sampleDecoded sampleLive [7]
    sample_unmarshal rfl rfl rfl rfl rfl

/-- C2. A decoded RouteSetEntry on which exactly one mutable field `f` differs
from its decoded value: Update hands one PATCH request to the transport,
addressed to the entry's own address, whose payload is the single key `f`
with the live value. -/
theorem C2_update_one_changed_field (J : JSON) (recv decoded live : RouteSetEntry) (b : Bytes)
    (f : String) (v : Value)
    (hdec : recv.UnmarshalJSON J b = (decoded, none))
    (hraw : live.rawData = b)
    (hf : f ∈ RouteSetEntry.readWriteFields)
    (hlive : live.field f = some v)
    (hdiff : decoded.field f ≠ some v)
    (hsame : ∀ g ∈ RouteSetEntry.readWriteFields, g ≠ f → live.field g = decoded.field g) :
    live.Update J
      = (live.toEntity.Patch live.address [(f, v)], [⟨live.address, [(f, v)]⟩]) := by
  rw [update_eq_of_decoded hdec hraw]
  simp only [RouteSetEntry.readWriteFields, List.mem_cons, List.mem_singleton,
    List.not_mem_nil, or_false] at hf hsame
  have e1 := hsame "EgressIdentifier" (by simp)
  have e2 := hsame "HopCount" (by simp)
  have e3 := hsame "VCAction" (by simp)
  have e4 := hsame "Valid" (by simp)
  rcases hf with rfl | rfl | rfl | rfl <;>
    simp [RouteSetEntry.field, RouteSetEntry.reflect, StructValue.FieldByName] at hlive hdiff e1 e2 e3 e4 <;>
    subst hlive <;>
    simp [Entity.Update, computePatch, RouteSetEntry.readWriteFields, RouteSetEntry.reflect,
      StructValue.FieldByName, Field.wireName, *]

/-- C2 at the sample entry with HopCount changed from 7 to 9: one request, to
the entry's address, with the single key HopCount. -/
theorem C2_update_one_changed_field_witness :
    sampleHopChanged.Update sampleJSON
      = (Outcome.success,
          [⟨"/redfish/v1/RouteSet/1", [("HopCount", Value.int 9)]⟩]) :=
  C2_update_one_changed_field sampleJSON {} sampleDecoded sampleHopChanged [7]
    "HopCount" (Value.int 9) sample_unmarshal rfl (by decide) rfl (by decide)
    (by
      intro g hg hne
      simp only [RouteSetEntry.readWriteFields, List.mem_cons, List.mem_singleton,
        List.not_mem_nil, or_false] at hg
      rcases hg with rfl | rfl | rfl | rfl
      · rfl
      · exact absurd rfl hne
      · rfl
      · rfl)

theorem computePatch_keys (original : RouteSetEntry) (live : RouteSetEntry) :
    ∀ kv ∈ computePatch original.reflect live.reflect RouteSetEntry.readWriteFields,
      kv.1 ∈ RouteSetEntry.readWriteFields := by
  intro kv hkv
  simp only [computePatch, List.mem_filterMap] at hkv
  obtain ⟨name, hname, hkv⟩ := hkv
  simp only [RouteSetEntry.readWriteFields, List.mem_cons, List.mem_singleton,
    List.not_mem_nil, or_false] at hname
  rcases hname with rfl | rfl | rfl | rfl <;>
    simp [RouteSetEntry.reflect, StructValue.FieldByName, Field.wireName] at hkv <;>
    (obtain ⟨_, rfl⟩ := hkv; simp [RouteSetEntry.readWriteFields])

theorem computePatch_congr (original live other : RouteSetEntry)
    (h1 : other.EgressIdentifier = live.EgressIdentifier)
    (h2 : other.HopCount = live.HopCount)
    (h3 : other.VCAction = live.VCAction)
    (h4 : other.Valid = live.Valid) :
    computePatch original.reflect other.reflect RouteSetEntry.readWriteFields
      = computePatch original.reflect live.reflect RouteSetEntry.readWriteFields := by
  simp [computePatch, RouteSetEntry.readWriteFields, RouteSetEntry.reflect,
    StructValue.FieldByName, Field.wireName, List.filterMap_cons, h1, h2, h3, h4]

/-- C3. Whatever a caller changes outside the mutable-field list (Description,
OEM, ODataContext, ODataEtag, ODataType, the embedded Entity), every key of
every payload Update produces is one of EgressIdentifier, HopCount, VCAction,
Valid, and the payloads are the same as those of any entry with the same
snapshot and the same four mutable values: the other fields are neither read
nor emitted. -/
theorem C3_update_ignores_other_fields (J : JSON) (live other : RouteSetEntry)
    (hraw : other.rawData = live.rawData)
    (h1 : other.EgressIdentifier = live.EgressIdentifier)
    (h2 : other.HopCount = live.HopCount)
    (h3 : other.VCAction = live.VCAction)
    (h4 : other.Valid = live.Valid) :
    (∀ req ∈ (other.Update J).2, ∀ kv ∈ req.payload,
        kv.1 ∈ ["EgressIdentifier", "HopCount", "VCAction", "Valid"]) ∧
      (other.Update J).2.map (·.payload) = (live.Update J).2.map (·.payload) := by
  constructor
  · intro req hreq kv hkv
    unfold RouteSetEntry.Update Entity.Update at hreq
    simp only at hreq
    split at hreq
    · simp at hreq
    · simp only [List.mem_singleton] at hreq
      subst hreq
      exact computePatch_keys _ _ kv hkv
  · unfold RouteSetEntry.Update Entity.Update
    simp only [hraw, computePatch_congr _ live other h1 h2 h3 h4]
    split <;> simp

/-- C3 at the sample entry: its description, OData type, OEM section and
identifier were all changed, HopCount too; only HopCount is sent. -/
theorem C3_update_ignores_other_fields_witness :
    (∀ req ∈ (RouteSetEntry.Update sampleJSON
          { sampleHopChanged with Description := "x", ODataType := "y", OEM := [1],
                                  identifier := "z" }).2,
        ∀ kv ∈ req.payload, kv.1 ∈ ["EgressIdentifier", "HopCount", "VCAction", "Valid"]) ∧
      (RouteSetEntry.Update sampleJSON
          { sampleHopChanged with Description := "x", ODataType := "y", OEM := [1],
                                  identifier := "z" }).2.map (·.payload)
        = (sampleHopChanged.Update sampleJSON).2.map (·.payload) :=
  C3_update_ignores_other_fields sampleJSON sampleHopChanged
    { sampleHopChanged with Description := "x", ODataType := "y", OEM := [1],
                            identifier := "z" } rfl rfl rfl rfl rfl

/-- C4, evaluated. An entry built in memory (no snapshot) with HopCount set to 3:
decoding the empty snapshot fails, yet Update returns success and sends a
PATCH with HopCount. -/
theorem C4_update_drops_decode_error :
    (({} : RouteSetEntry).UnmarshalJSON sampleJSON []).2
        = some ⟨"unexpected end of JSON input"⟩ ∧
      RouteSetEntry.Update sampleJSON
          { address := "/redfish/v1/RouteSet/1", client := some sampleClient, HopCount := 3 }
        = (Outcome.success, [⟨"/redfish/v1/RouteSet/1", [("HopCount", Value.int 3)]⟩]) := by
  constructor
  · rfl
  · rfl

/-- Whenever the snapshot cannot be decoded, Update behaves as if every field of
the snapshot had its zero value; the decoding error is not returned. -/
theorem update_of_undecodable (J : JSON) (live : RouteSetEntry) (err : GoError)
    (h : (({} : RouteSetEntry).UnmarshalJSON J live.rawData).2 = some err) :
    live.Update J = live.toEntity.Update ({} : RouteSetEntry).reflect live.reflect
      RouteSetEntry.readWriteFields := by
  unfold RouteSetEntry.Update
  unfold RouteSetEntry.UnmarshalJSON at h ⊢
  cases hj : J.routeSetEntry live.rawData with
  | error e => rfl
  | ok t => simp [hj] at h

/-! ## Maps -/

theorem Failures.get?_set (m : Failures) (k k' : String) (v : GoError) :
    (m.set k v).get? k' = if k' = k then some v else m.get? k' := by
  unfold Failures.set Failures.get?
  by_cases h : k' = k
  · subst h; simp
  · have h' : ¬ k = k' := fun e => h e.symm
    simp only [List.find?_cons, h, if_false]
    have : ((k, v).1 == k') = false := by simpa using h'
    rw [this]
    simp only [List.find?_filter]
    congr 2
    funext p
    by_cases hp : p.1 = k'
    · simp [hp, h]
    · simp [hp]

theorem Failures.mem_keys_set (m : Failures) (k k' : String) (v : GoError) :
    k' ∈ (m.set k v).keys ↔ k' = k ∨ k' ∈ m.keys := by
  unfold Failures.set Failures.keys
  simp only [List.map_cons, List.mem_cons, List.mem_map, List.mem_filter]
  constructor
  · rintro (h | ⟨p, ⟨hp, _⟩, rfl⟩)
    · exact Or.inl h
    · exact Or.inr ⟨p, hp, rfl⟩
  · rintro (h | ⟨p, hp, rfl⟩)
    · exact Or.inl h
    · by_cases hk : p.1 = k
      · exact Or.inl hk
      · exact Or.inr ⟨p, ⟨hp, by simpa using hk⟩, rfl⟩

theorem Failures.nodup_keys_set (m : Failures) (k : String) (v : GoError)
    (h : m.keys.Nodup) : (m.set k v).keys.Nodup := by
  unfold Failures.set Failures.keys at *
  simp only [List.map_cons, List.nodup_cons, List.mem_map, List.mem_filter]
  constructor
  · rintro ⟨p, ⟨_, hp⟩, rfl⟩
    simp at hp
  · exact h.sublist ((List.filter_sublist m).map _)

theorem Failures.mem_set (m : Failures) (k : String) (v : GoError) (p : String × GoError) :
    p ∈ m.set k v ↔ p = (k, v) ∨ (p ∈ m ∧ p.1 ≠ k) := by
  unfold Failures.set
  simp

theorem Failures.mem_keys_assign (ps : List (String × GoError)) :
    ∀ (m : Failures) (k : String),
      k ∈ (m.assign ps).keys ↔ k ∈ m.keys ∨ k ∈ ps.map (·.1) := by
  induction ps with
  | nil => intro m k; simp [Failures.assign]
  | cons p ps ih =>
    intro m k
    simp only [Failures.assign, ih, Failures.mem_keys_set, List.map_cons, List.mem_cons]
    tauto

theorem Failures.nodup_keys_assign (ps : List (String × GoError)) :
    ∀ (m : Failures), m.keys.Nodup → (m.assign ps).keys.Nodup := by
  induction ps with
  | nil => intro m h; exact h
  | cons p ps ih => intro m h; exact ih _ (Failures.nodup_keys_set m p.1 p.2 h)

theorem Failures.get?_assign_of_not_mem (ps : List (String × GoError)) :
    ∀ (m : Failures) (k : String), (∀ p ∈ ps, p.1 ≠ k) → (m.assign ps).get? k = m.get? k := by
  induction ps with
  | nil => intro m k _; rfl
  | cons p ps ih =>
    intro m k h
    simp only [Failures.assign]
    rw [ih _ k (fun q hq => h q (List.mem_cons_of_mem _ hq)), Failures.get?_set]
    have : ¬ k = p.1 := fun e => h p (List.mem_cons_self _ _) e.symm
    simp [this]

theorem Failures.get?_assign_of_mem (ps : List (String × GoError)) :
    ∀ (m : Failures) (k : String) (v : GoError), (∀ p ∈ ps, p.1 = k → p.2 = v) →
      (∃ p ∈ ps, p.1 = k) → (m.assign ps).get? k = some v := by
  induction ps with
  | nil => intro m k v _ h; simp at h
  | cons p ps ih =>
    intro m k v hall hex
    simp only [Failures.assign]
    by_cases hps : ∃ q ∈ ps, q.1 = k
    · exact ih _ k v (fun q hq => hall q (List.mem_cons_of_mem _ hq)) hps
    · have hp : p.1 = k := by
        obtain ⟨q, hq, hqk⟩ := hex
        rcases List.mem_cons.mp hq with rfl | hq
        · exact hqk
        · exact absurd ⟨q, hq, hqk⟩ hps
      have hv : p.2 = v := hall p (List.mem_cons_self _ _) hp
      rw [Failures.get?_assign_of_not_mem ps _ k (fun q hq hqk => hps ⟨q, hq, hqk⟩),
        Failures.get?_set]
      simp [hp, hv]

theorem Failures.mem_of_get? (m : Failures) (k : String) (v : GoError)
    (h : m.get? k = some v) : (k, v) ∈ m := by
  unfold Failures.get? at h
  cases hf : m.find? (fun p => p.1 == k) with
  | none => simp [hf] at h
  | some p =>
    simp [hf] at h
    have h1 := List.find?_some hf
    have h2 := List.mem_of_find?_eq_some hf
    simp at h1
    rw [← h1, ← h]
    exact h2

theorem Failures.get?_of_mem (m : Failures) (hm : m.keys.Nodup) (k : String) (v : GoError)
    (h : (k, v) ∈ m) : m.get? k = some v := by
  induction m with
  | nil => simp at h
  | cons p m ih =>
    unfold Failures.keys at hm
    simp only [List.map_cons, List.nodup_cons] at hm
    unfold Failures.get?
    rcases List.mem_cons.mp h with rfl | h
    · simp
    · have hne : ¬ p.1 = k := by
        intro e
        exact hm.1 (e ▸ List.mem_map_of_mem (·.1) h)
      simp only [List.find?_cons]
      have : (p.1 == k) = false := by simpa using hne
      rw [this]
      exact ih hm.2 h

theorem Failures.length_eq_card (m : Failures) (hm : m.keys.Nodup) :
    m.length = m.keys.toFinset.card := by
  rw [List.toFinset_card_of_nodup hm]
  simp [Failures.keys]

/-! ## Completion orders -/

theorem take_one_drop_perm {α : Type} (l : List α) (i : Nat) :
    ((l.drop i).take 1 ++ l.eraseIdx i).Perm l := by
  rw [List.eraseIdx_eq_take_drop_succ]
  have h1 : l = l.take i ++ ((l.drop i).take 1 ++ l.drop (i + 1)) := by
    have : l.drop (i + 1) = (l.drop i).drop 1 := by rw [List.drop_drop, Nat.add_comm]
    rw [this, List.take_append_drop, List.take_append_drop]
  have h2 : ((l.drop i).take 1 ++ (l.take i ++ l.drop (i + 1))).Perm
      (l.take i ++ ((l.drop i).take 1 ++ l.drop (i + 1))) := by
    rw [← List.append_assoc, ← List.append_assoc]
    exact List.Perm.append_right _ List.perm_append_comm
  exact h2.trans (by rw [← h1])

/-- Receiving is a reordering: every sent record is received exactly once. -/
theorem interleave_perm {α : Type} (ks : List Nat) :
    ∀ l : List α, (interleave ks l).Perm l := by
  induction ks with
  | nil => intro l; exact List.Perm.refl _
  | cons k ks ih =>
    intro l
    cases l with
    | nil => exact List.Perm.refl _
    | cons x xs =>
      simp only [interleave]
      exact (List.Perm.append_left _ (ih _)).trans (take_one_drop_perm _ _)

/-- Every reordering of the sent records is the completion order of some list of
picks. -/
theorem interleave_complete {α : Type} (received : List α) :
    ∀ sent : List α, received.Perm sent → ∃ ks, interleave ks sent = received := by
  induction received with
  | nil =>
    intro sent h
    exact ⟨[], by rw [List.Perm.eq_nil h.symm]; rfl⟩
  | cons y ys ih =>
    intro sent h
    have hy : y ∈ sent := h.subset (List.mem_cons_self _ _)
    obtain ⟨i, hi, hget⟩ := List.getElem_of_mem hy
    have hdrop : (sent.drop i).take 1 = [y] := by
      rw [List.drop_eq_getElem_cons hi, hget]
      simp
    have hperm : ys.Perm (sent.eraseIdx i) := by
      have h1 : (y :: sent.eraseIdx i).Perm sent := by
        have := take_one_drop_perm sent i
        rw [hdrop] at this
        exact this
      exact (List.perm_cons y).mp (h.trans h1.symm)
    obtain ⟨ks, hks⟩ := ih _ hperm
    refine ⟨i :: ks, ?_⟩
    cases sent with
    | nil => simp at hy
    | cons x xs =>
      have hmod : i % (xs.length + 1) = i := Nat.mod_eq_of_lt (by simpa using hi)
      simp only [interleave, hmod]
      rw [hdrop, hks]
      rfl

/-! ## The drain loop -/

theorem drain_eq {α : Type} (ch : List (GetResult α)) :
    ∀ (result : List (Option α)) (ce : CollectionError),
      drain ch result ce = (result ++ items ch, ⟨ce.Failures.assign (writes ch)⟩) := by
  induction ch with
  | nil => intro result ce; simp [drain, items, writes, Failures.assign]
  | cons r ch ih =>
    intro result ce
    cases hr : r.Error with
    | none =>
      simp only [drain, hr, ih]
      simp [items, writes, hr, List.filter_cons, List.filterMap_cons]
    | some e =>
      simp only [drain, hr, ih]
      simp [items, writes, hr, List.filter_cons, List.filterMap_cons, Failures.assign]

theorem Failures.assign_append (a b : List (String × GoError)) :
    ∀ m : Failures, m.assign (a ++ b) = (m.assign a).assign b := by
  induction a with
  | nil => intro m; rfl
  | cons p a ih => intro m; exact ih _

theorem recordListing_eq (link : String) (err : Option GoError) (ce : CollectionError) :
    recordListing link err ce = ⟨ce.Failures.assign (listingWrite link err)⟩ := by
  cases err <;> rfl

theorem items_append {α : Type} (a b : List (GetResult α)) :
    items (a ++ b) = items a ++ items b := by
  simp [items]

theorem writes_append {α : Type} (a b : List (GetResult α)) :
    writes (a ++ b) = writes a ++ writes b := by
  simp [writes]

theorem serialFanIn_eq {α : Type} (link : String) (err : Option GoError) (ch : List (GetResult α))
    (listingFirst : Bool) :
    serialFanIn link err ch listingFirst
      = (items ch, ⟨Failures.assign [] (fanWrites link err ch listingFirst)⟩) := by
  unfold serialFanIn fanWrites
  cases listingFirst with
  | false =>
    simp [drain_eq, recordListing_eq, NewCollectionError, Failures.assign_append]
  | true =>
    simp only [drain_eq, recordListing_eq, NewCollectionError, if_true, List.nil_append,
      Failures.assign_append]
    rw [← items_append, List.take_append_drop]

theorem mem_writes {α : Type} (ch : List (GetResult α)) (p : String × GoError) :
    p ∈ writes ch ↔ ∃ r ∈ ch, r.Link = p.1 ∧ r.Error = some p.2 := by
  unfold writes
  simp only [List.mem_filterMap]
  constructor
  · rintro ⟨r, hr, h⟩
    cases he : r.Error with
    | none => simp [he] at h
    | some e =>
      simp only [he, Option.map_some', Option.some.injEq] at h
      subst h
      exact ⟨r, hr, rfl, he⟩
  · rintro ⟨r, hr, hl, he⟩
    exact ⟨r, hr, by simp [he, hl]⟩

theorem mem_fanWrites {α : Type} (link : String) (err : Option GoError)
    (ch : List (GetResult α)) (listingFirst : Bool) (p : String × GoError) :
    p ∈ fanWrites link err ch listingFirst ↔
      (p.1 = link ∧ err = some p.2) ∨ ∃ r ∈ ch, r.Link = p.1 ∧ r.Error = some p.2 := by
  have hl : p ∈ listingWrite link err ↔ (p.1 = link ∧ err = some p.2) := by
    cases err with
    | none => simp [listingWrite]
    | some e =>
      simp only [listingWrite, List.mem_singleton, Option.some.injEq]
      constructor
      · rintro rfl; exact ⟨rfl, rfl⟩
      · rintro ⟨h1, h2⟩; exact Prod.ext h1 h2.symm
  have hw : p ∈ writes ch ↔ p ∈ writes (ch.take (ch.length - 1)) ∨
      p ∈ writes (ch.drop (ch.length - 1)) := by
    rw [← List.mem_append, ← writes_append, List.take_append_drop]
  unfold fanWrites
  cases listingFirst with
  | false =>
    simp only [Bool.false_eq_true, if_false, List.mem_append, hl, ← mem_writes]
    tauto
  | true =>
    simp only [if_true, List.mem_append, hl, ← mem_writes ch, hw]
    tauto

/-! ## The fan-out as a whole -/

theorem listReferencedRouteSetEntrys_eq (J : JSON) (lister : Lister) (c : Client)
    (link : String) (s : Schedule) (h : link ≠ "") :
    ListReferencedRouteSetEntrys J lister c link s
      = resolveCollection (GetRouteSetEntry J c) (lister c link) link s := by
  have hrec : (fun link => GetResult.mk (GetRouteSetEntry J c link).1 link (GetRouteSetEntry J c link).2)
      = record (GetRouteSetEntry J c) := rfl
  unfold ListReferencedRouteSetEntrys resolveCollection CollectList
  simp only [beq_iff_eq, h, if_false, hrec]
  cases fanIn link (lister c link).err
    (interleave s.order (List.map (record (GetRouteSetEntry J c)) (lister c link).members))
    s.listingFirst s.overlap with
  | none => rfl
  | some p => rfl

theorem listReferencedSignatures_eq (J : JSON) (lister : Lister) (c : Client)
    (link : String) (s : Schedule) (h : link ≠ "") :
    ListReferencedSignatures J lister c link s
      = resolveCollection (GetSignature J c) (lister c link) link s := by
  have hrec : (fun link => GetResult.mk (GetSignature J c link).1 link (GetSignature J c link).2)
      = record (GetSignature J c) := rfl
  unfold ListReferencedSignatures resolveCollection CollectList
  simp only [beq_iff_eq, h, if_false, hrec]
  cases fanIn link (lister c link).err
    (interleave s.order (List.map (record (GetSignature J c)) (lister c link).members))
    s.listingFirst s.overlap with
  | none => rfl
  | some p => rfl

theorem mem_received {α : Type} (G : String → Option α × Option GoError) (listing : Listing)
    (s : Schedule) (r : GetResult α) :
    r ∈ received G listing s ↔ ∃ m ∈ listing.members, r = record G m := by
  unfold received
  rw [(interleave_perm s.order _).mem_iff]
  simp only [List.mem_map]
  constructor
  · rintro ⟨m, hm, rfl⟩; exact ⟨m, hm, rfl⟩
  · rintro ⟨m, hm, rfl⟩; exact ⟨m, hm, rfl⟩

theorem resolve_result {α : Type} (G : String → Option α × Option GoError) (listing : Listing)
    (link : String) (s : Schedule) :
    (resolved G listing link s).result = items (received G listing s) := by
  simp only [resolved, serialFanIn_eq, received]
  split <;> rfl

theorem resolve_calls {α : Type} (G : String → Option α × Option GoError) (listing : Listing)
    (link : String) (s : Schedule) :
    (resolved G listing link s).calls
      = Call.list link :: (received G listing s).map (fun r => Call.get r.Link) := by
  simp only [resolved, received]
  split <;> rfl

theorem resolve_err {α : Type} (G : String → Option α × Option GoError) (listing : Listing)
    (link : String) (s : Schedule) :
    (resolved G listing link s).err
      = if finalFailures G listing link s = [] then none
        else some ⟨finalFailures G listing link s⟩ := by
  simp only [resolved, serialFanIn_eq, received, finalFailures, CollectionError.Empty]
  cases Failures.assign [] (fanWrites link listing.err
    (interleave s.order (List.map (record G) listing.members)) s.listingFirst) <;> simp

theorem resolve_failures {α : Type} (G : String → Option α × Option GoError)
    (listing : Listing) (link : String) (s : Schedule) :
    (resolved G listing link s).failures = finalFailures G listing link s := by
  unfold ListResult.failures
  rw [resolve_err]
  split
  · next h1 =>
    split at h1
    · simp at h1
    · simp at h1; rw [← h1]
  · next h1 =>
    split at h1
    · next h2 => exact h2.symm
    · simp at h1

theorem items_perm {α : Type} (G : String → Option α × Option GoError) (listing : Listing)
    (s : Schedule) :
    (items (received G listing s)).Perm
      ((listing.members.filter (fun m => (G m).2.isNone)).map (fun m => (G m).1)) := by
  unfold items received
  have h1 := ((interleave_perm s.order (listing.members.map (record G))).filter
    (fun r => r.Error.isNone)).map (·.Item)
  refine h1.trans ?_
  rw [List.filter_map, List.map_map]
  exact List.Perm.refl _

theorem mem_finalWrites {α : Type} (G : String → Option α × Option GoError)
    (listing : Listing) (link : String) (s : Schedule) (p : String × GoError) :
    p ∈ fanWrites link listing.err (received G listing s) s.listingFirst ↔
      (p.1 = link ∧ listing.err = some p.2) ∨
        (p.1 ∈ listing.members ∧ (G p.1).2 = some p.2) := by
  rw [mem_fanWrites]
  constructor
  · rintro (h | ⟨r, hr, hl, he⟩)
    · exact Or.inl h
    · obtain ⟨m, hm, rfl⟩ := (mem_received G listing s r).mp hr
      simp only [record] at hl he
      subst hl
      exact Or.inr ⟨hm, he⟩
  · rintro (h | ⟨hm, he⟩)
    · exact Or.inl h
    · exact Or.inr ⟨record G p.1, (mem_received G listing s _).mpr ⟨p.1, hm, rfl⟩, rfl, he⟩

theorem Failures.mem_assign (ps : List (String × GoError)) :
    ∀ (m : Failures) (p : String × GoError), p ∈ m.assign ps → p ∈ m ∨ p ∈ ps := by
  induction ps with
  | nil => intro m p h; exact Or.inl h
  | cons q ps ih =>
    intro m p h
    rcases ih _ p h with h | h
    · rcases (Failures.mem_set m q.1 q.2 p).mp h with rfl | ⟨h, _⟩
      · exact Or.inr (List.mem_cons_self _ _)
      · exact Or.inl h
    · exact Or.inr (List.mem_cons_of_mem _ h)

theorem finalFailures_nodup {α : Type} (G : String → Option α × Option GoError)
    (listing : Listing) (link : String) (s : Schedule) :
    (finalFailures G listing link s).keys.Nodup :=
  Failures.nodup_keys_assign _ [] (by simp [Failures.keys])

theorem mem_finalFailures {α : Type} (G : String → Option α × Option GoError)
    (listing : Listing) (link : String) (s : Schedule) (p : String × GoError)
    (h : p ∈ finalFailures G listing link s) :
    (p.1 = link ∧ listing.err = some p.2) ∨
      (p.1 ∈ listing.members ∧ (G p.1).2 = some p.2) := by
  rcases Failures.mem_assign _ [] p h with h | h
  · simp at h
  · exact (mem_finalWrites G listing link s p).mp h

theorem finalFailures_member {α : Type} (G : String → Option α × Option GoError)
    (listing : Listing) (link : String) (s : Schedule) (m : String) (e : GoError)
    (hm : m ∈ listing.members) (he : (G m).2 = some e)
    (hlink : listing.err = none ∨ m ≠ link) :
    (finalFailures G listing link s).get? m = some e := by
  apply Failures.get?_assign_of_mem
  · intro p hp hpm
    rcases (mem_finalWrites G listing link s p).mp hp with ⟨h1, h2⟩ | ⟨_, h2⟩
    · rcases hlink with h | h
      · rw [h] at h2; cases h2
      · exact absurd (hpm ▸ h1) h
    · rw [hpm, he] at h2
      exact (Option.some.inj h2).symm
  · exact ⟨(m, e), (mem_finalWrites G listing link s (m, e)).mpr (Or.inr ⟨hm, he⟩), rfl⟩

theorem finalFailures_listing {α : Type} (G : String → Option α × Option GoError)
    (listing : Listing) (link : String) (s : Schedule) (e : GoError)
    (herr : listing.err = some e)
    (hne : ∀ m ∈ listing.members, (G m).2 ≠ none → m ≠ link) :
    (finalFailures G listing link s).get? link = some e := by
  apply Failures.get?_assign_of_mem
  · intro p hp hpm
    rcases (mem_finalWrites G listing link s p).mp hp with ⟨_, h2⟩ | ⟨h1, h2⟩
    · rw [herr] at h2
      exact (Option.some.inj h2).symm
    · exact absurd hpm (hne p.1 h1 (by rw [h2]; simp))
  · exact ⟨(link, e), (mem_finalWrites G listing link s (link, e)).mpr (Or.inl ⟨rfl, herr⟩), rfl⟩

theorem finalFailures_eq_nil {α : Type} (G : String → Option α × Option GoError)
    (listing : Listing) (link : String) (s : Schedule) :
    finalFailures G listing link s = [] ↔
      listing.err = none ∧ ∀ m ∈ listing.members, (G m).2 = none := by
  constructor
  · intro h
    have hk : ∀ k, k ∉ (finalFailures G listing link s).keys := by
      intro k; rw [h]; simp [Failures.keys]
    have hw : ∀ p, p ∉ fanWrites link listing.err (received G listing s) s.listingFirst := by
      intro p hp
      apply hk p.1
      unfold finalFailures
      rw [Failures.mem_keys_assign]
      exact Or.inr (List.mem_map_of_mem _ hp)
    constructor
    · cases he : listing.err with
      | none => rfl
      | some e =>
        exact absurd ((mem_finalWrites G listing link s (link, e)).mpr (Or.inl ⟨rfl, he⟩))
          (hw _)
    · intro m hm
      cases he : (G m).2 with
      | none => rfl
      | some e =>
        exact absurd ((mem_finalWrites G listing link s (m, e)).mpr (Or.inr ⟨hm, he⟩)) (hw _)
  · rintro ⟨h1, h2⟩
    cases hF : finalFailures G listing link s with
    | nil => rfl
    | cons p F =>
      have hp : p ∈ finalFailures G listing link s := by rw [hF]; exact List.mem_cons_self _ _
      rcases mem_finalFailures G listing link s p hp with ⟨_, h⟩ | ⟨hm, h⟩
      · rw [h1] at h; cases h
      · rw [h2 p.1 hm] at h; cases h

/-! ## Single-resource fetch -/

theorem getRouteSetEntry_contract (J : JSON) (c : Client) (uri : String) :
    FetchContract (c.Get uri) (fun body => ({} : RouteSetEntry).Decode J body)
      (fun r => { r with client := some c }) (GetRouteSetEntry J c uri) := by
  unfold FetchContract GetRouteSetEntry
  cases hget : c.Get uri with
  | error e => simp
  | ok body =>
    cases hdec : ({} : RouteSetEntry).Decode J body with
    | mk r oe =>
      cases oe with
      | none =>
        simp only [hdec]
        refine ⟨fun _ h => (by cases h), ?_, ?_, Or.inl (by simp)⟩
        · intro b err hb he
          cases hb
          rw [hdec] at he
          cases he
        · intro b hb _
          cases hb
          rw [hdec]
          rfl
      | some e =>
        simp only [hdec]
        refine ⟨fun _ h => (by cases h), ?_, ?_, Or.inr (by simp)⟩
        · intro b err hb he
          cases hb
          rw [hdec] at he
          cases he
          rfl
        · intro b hb he
          cases hb
          rw [hdec] at he
          cases he

theorem getSignature_contract (J : JSON) (c : Client) (uri : String) :
    FetchContract (c.Get uri) (fun body => ({} : Signature).Decode J body)
      (fun r => { r with client := some c }) (GetSignature J c uri) := by
  unfold FetchContract GetSignature
  cases hget : c.Get uri with
  | error e => simp
  | ok body =>
    cases hdec : ({} : Signature).Decode J body with
    | mk r oe =>
      cases oe with
      | none =>
        simp only [hdec]
        refine ⟨fun _ h => (by cases h), ?_, ?_, Or.inl (by simp)⟩
        · intro b err hb he
          cases hb
          rw [hdec] at he
          cases he
        · intro b hb _
          cases hb
          rw [hdec]
          rfl
      | some e =>
        simp only [hdec]
        refine ⟨fun _ h => (by cases h), ?_, ?_, Or.inr (by simp)⟩
        · intro b err hb he
          cases hb
          rw [hdec] at he
          cases he
          rfl
        · intro b hb he
          cases hb
          rw [hdec] at he
          cases he

/-- C10. GetRouteSetEntry and GetSignature return exactly one of a resource and
an error: the transport error with a nil resource when `c.Get` fails, the
decoding error with a nil resource when the body cannot be decoded, and
otherwise the resource decoded from the body, with the client `c` attached,
and a nil error. -/
theorem C10_get_resource_or_error (J : JSON) (c : Client) (uri : String) :
    FetchContract (c.Get uri) (fun body => ({} : RouteSetEntry).Decode J body)
        (fun r => { r with client := some c }) (GetRouteSetEntry J c uri) ∧
      FetchContract (c.Get uri) (fun body => ({} : Signature).Decode J body)
        (fun r => { r with client := some c }) (GetSignature J c uri) :=
  ⟨getRouteSetEntry_contract J c uri, getSignature_contract J c uri⟩

/-- C10 at the sample transport: `/bad` cannot be fetched, the body of `/empty`
cannot be decoded, `/a` yields a resource carrying the client. -/
theorem C10_get_resource_or_error_witness :
    GetRouteSetEntry sampleJSON sampleClient "/bad" = (none, some ⟨"timeout"⟩) ∧
      GetSignature sampleJSON sampleClient "/empty" = (none, some ⟨"EOF"⟩) ∧
      GetRouteSetEntry sampleJSON sampleClient "/a"
        = (some { sampleDecoded with client := some sampleClient }, none) :=
  ⟨(C10_get_resource_or_error sampleJSON sampleClient "/bad").1.1 _ rfl,
    (C10_get_resource_or_error sampleJSON sampleClient "/empty").2.2.1 _ _ rfl rfl,
    (C10_get_resource_or_error sampleJSON sampleClient "/a").1.2.2.1 _ rfl rfl⟩

theorem getRouteSetEntry_some (J : JSON) (c : Client) (uri : String)
    (h : (GetRouteSetEntry J c uri).2 = none) : (GetRouteSetEntry J c uri).1.isSome := by
  rcases (getRouteSetEntry_contract J c uri).2.2.2 with h1 | h1
  · exact h1.1
  · rw [h] at h1; simp at h1

theorem getSignature_some (J : JSON) (c : Client) (uri : String)
    (h : (GetSignature J c uri).2 = none) : (GetSignature J c uri).1.isSome := by
  rcases (getSignature_contract J c uri).2.2.2 with h1 | h1
  · exact h1.1
  · rw [h] at h1; simp at h1

theorem concurrentWrites_iff {α : Type} (err : Option GoError) (ch : List (GetResult α))
    (overlap : Bool) :
    concurrentWrites err ch overlap = true ↔
      overlap = true ∧ err ≠ none ∧ ∃ r, ch.getLast? = some r ∧ r.Error ≠ none := by
  unfold concurrentWrites
  cases hl : ch.getLast? with
  | none => simp
  | some r =>
    cases err <;> cases hr : r.Error <;> simp [hr]

theorem concurrentWrites_none {α : Type} (ch : List (GetResult α)) (overlap : Bool) :
    concurrentWrites none ch overlap = false := by
  simp [concurrentWrites]

theorem resolveCollection_returned {α : Type} (G : String → Option α × Option GoError)
    (listing : Listing) (link : String) (s : Schedule)
    (h : concurrentWrites listing.err (received G listing s) s.overlap = false) :
    resolveCollection G listing link s = Run.returned (resolved G listing link s) := by
  unfold received at h
  unfold resolveCollection resolved fanIn
  simp only [h, Bool.false_eq_true, if_false]
  split <;> rfl

theorem resolveCollection_fatal {α : Type} (G : String → Option α × Option GoError)
    (listing : Listing) (link : String) (s : Schedule)
    (h : concurrentWrites listing.err (received G listing s) s.overlap = true) :
    resolveCollection G listing link s = Run.fatal := by
  unfold received at h
  unfold resolveCollection fanIn
  simp only [h, if_true]

/-! ## Collections: the claims -/

/-- C5. For the empty reference both functions return an empty sequence and a
nil error and call neither the Collection Lister nor `c.Get`. -/
theorem C5_empty_reference (J : JSON) (lister : Lister) (c : Client) (s : Schedule) :
    ListReferencedRouteSetEntrys J lister c "" s = Run.returned ⟨[], none, []⟩ ∧
      ListReferencedSignatures J lister c "" s = Run.returned ⟨[], none, []⟩ :=
  ⟨rfl, rfl⟩

theorem length_filter_isNone_add {α : Type} (f : α → Option GoError) (l : List α) :
    (l.filter (fun m => (f m).isNone)).length + (l.filter (fun m => (f m).isSome)).length
      = l.length := by
  induction l with
  | nil => rfl
  | cons a l ih =>
    cases h : f a <;> simp [List.filter_cons, h] <;> omega

theorem finalFailures_keys {α : Type} (G : String → Option α × Option GoError)
    (listing : Listing) (link : String) (s : Schedule) (hl : listing.err = none) (k : String) :
    k ∈ (finalFailures G listing link s).keys ↔
      k ∈ listing.members.filter (fun m => (G m).2.isSome) := by
  unfold finalFailures
  rw [Failures.mem_keys_assign]
  simp only [Failures.keys, List.map_nil, List.not_mem_nil, false_or, List.mem_map,
    List.mem_filter]
  constructor
  · rintro ⟨p, hp, rfl⟩
    rcases (mem_finalWrites G listing link s p).mp hp with ⟨_, h⟩ | ⟨hm, h⟩
    · rw [hl] at h; cases h
    · exact ⟨hm, by rw [h]; rfl⟩
  · rintro ⟨hm, h⟩
    cases he : (G k).2 with
    | none => rw [he] at h; cases h
    | some e => exact ⟨(k, e), (mem_finalWrites G listing link s (k, e)).mpr (Or.inr ⟨hm, he⟩), rfl⟩

theorem finalFailures_length {α : Type} (G : String → Option α × Option GoError)
    (listing : Listing) (link : String) (s : Schedule) (hl : listing.err = none) :
    (finalFailures G listing link s).length
      = ((listing.members.filter (fun m => (G m).2.isSome)).dedup).length := by
  rw [Failures.length_eq_card _ (finalFailures_nodup G listing link s), ← List.card_toFinset]
  congr 1
  ext k
  simp only [List.mem_toFinset]
  exact finalFailures_keys G listing link s hl k

theorem resolve_aggregatesAll {α : Type} (G : String → Option α × Option GoError)
    (hG : ∀ m, (G m).2 = none → (G m).1.isSome)
    (listing : Listing) (link : String) (s : Schedule) (hl : listing.err = none) :
    AggregatesAll G listing.members (resolved G listing link s) := by
  have hperm := items_perm G listing s
  unfold AggregatesAll
  rw [resolve_result, resolve_failures, resolve_calls]
  refine ⟨hperm, ?_, ?_, ?_, ?_, finalFailures_length G listing link s hl, ?_⟩
  · intro x hx
    have hx2 := hperm.subset hx
    simp only [List.mem_map, List.mem_filter] at hx2
    obtain ⟨m, ⟨_, hm⟩, rfl⟩ := hx2
    apply hG
    cases h : (G m).2 with
    | none => rfl
    | some e => rw [h] at hm; cases hm
  · rw [hperm.length_eq, List.length_map]
  · intro m hm e he
    have hget := finalFailures_member G listing link s m e hm he (Or.inl hl)
    refine ⟨hget, (m, e), ⟨Failures.mem_of_get? _ _ _ hget, rfl⟩, ?_⟩
    rintro ⟨k, v⟩ ⟨hp, hk⟩
    simp only at hk
    subst hk
    have := Failures.get?_of_mem _ (finalFailures_nodup G listing link s) k v hp
    rw [hget] at this
    cases this
    rfl
  · intro p hp
    rcases mem_finalFailures G listing link s p hp with ⟨_, h⟩ | h
    · rw [hl] at h; cases h
    · exact h
  · intro m hm
    refine List.mem_cons_of_mem _ (List.mem_map.mpr ⟨record G m, ?_, rfl⟩)
    exact (mem_received G listing s _).mpr ⟨m, hm, rfl⟩

/-- C6. Over a non-empty reference whose listing succeeds, whichever members
fail and whatever the completion order, the call returns and: the returned
sequence holds the resources of the members that succeeded, one for each and
nothing else; the failure map holds, for each failing member, one entry
under that member's address with that member's error, and no other entry;
and every member is fetched. Entries are counted per failing address. -/
theorem C6_failures_are_aggregated (J : JSON) (lister : Lister) (c : Client) (link : String)
    (s : Schedule) (hlink : link ≠ "") (hlist : (lister c link).err = none) :
    (ListReferencedRouteSetEntrys J lister c link s).Returns
        (AggregatesAll (GetRouteSetEntry J c) (lister c link).members) ∧
      (ListReferencedSignatures J lister c link s).Returns
        (AggregatesAll (GetSignature J c) (lister c link).members) := by
  have h1 : concurrentWrites (lister c link).err
      (received (GetRouteSetEntry J c) (lister c link) s) s.overlap = false := by
    rw [hlist]; exact concurrentWrites_none _ _
  have h2 : concurrentWrites (lister c link).err
      (received (GetSignature J c) (lister c link) s) s.overlap = false := by
    rw [hlist]; exact concurrentWrites_none _ _
  rw [listReferencedRouteSetEntrys_eq J lister c link s hlink,
    listReferencedSignatures_eq J lister c link s hlink,
    resolveCollection_returned _ _ link s h1, resolveCollection_returned _ _ link s h2]
  exact ⟨⟨_, rfl, resolve_aggregatesAll _ (getRouteSetEntry_some J c) _ link s hlist⟩,
    ⟨_, rfl, resolve_aggregatesAll _ (getSignature_some J c) _ link s hlist⟩⟩

/-- C6 at the sample collection `/five`: five members, of which `/bad` and
`/empty` fail. -/
theorem C6_failures_are_aggregated_witness :
    (ListReferencedRouteSetEntrys sampleJSON sampleLister sampleClient "/five"
        ⟨[1, 3], false, true⟩).Returns
        (AggregatesAll (GetRouteSetEntry sampleJSON sampleClient)
          ["/a", "/bad", "/b", "/empty", "/c"]) ∧
      (ListReferencedSignatures sampleJSON sampleLister sampleClient "/five"
        ⟨[1, 3], false, true⟩).Returns
        (AggregatesAll (GetSignature sampleJSON sampleClient)
          ["/a", "/bad", "/b", "/empty", "/c"]) :=
  C6_failures_are_aggregated sampleJSON sampleLister sampleClient "/five"
    ⟨[1, 3], false, true⟩ (by decide) rfl

/-- The sample collection `/five` in numbers: three resources, two entries, under
the two failing addresses. -/
theorem five_members_two_failing :
    (ListReferencedRouteSetEntrys sampleJSON sampleLister sampleClient "/five"
        ⟨[1, 3], false, true⟩).Returns
      (fun out => out.result.length = 3 ∧
        out.failures = [("/empty", ⟨"EOF"⟩), ("/bad", ⟨"timeout"⟩)]) :=
  ⟨_, rfl, rfl, rfl⟩

theorem resolve_countsAddUp {α : Type} (G : String → Option α × Option GoError)
    (listing : Listing) (link : String) (s : Schedule) (hl : listing.err = none)
    (hd : (listing.members.filter (fun m => (G m).2.isSome)).Nodup) :
    CountsAddUp listing.members (resolved G listing link s) := by
  unfold CountsAddUp
  rw [resolve_result, resolve_failures, finalFailures_length G listing link s hl,
    (items_perm G listing s).length_eq, List.length_map, hd.dedup]
  exact length_filter_isNone_add (fun m => (G m).2) listing.members

/-- C7, as stated, fails: the sample collection `/dup` lists the failing address
`/bad` twice; the run returns no resource and one failure entry, which do
not add up to the two members. -/
theorem C7_counts_counterexample :
    (sampleLister sampleClient "/dup").members.length = 2 ∧
      (sampleLister sampleClient "/dup").err = none ∧
      (ListReferencedRouteSetEntrys sampleJSON sampleLister sampleClient "/dup"
          ⟨[], false, false⟩).Returns
        (fun out => out.result = [] ∧ out.failures = [("/bad", ⟨"timeout"⟩)] ∧
          ¬ CountsAddUp (sampleLister sampleClient "/dup").members out) := by
  refine ⟨rfl, rfl, _, rfl, rfl, rfl, ?_⟩
  unfold CountsAddUp
  decide

/-- C7, amended. Over a non-empty reference whose listing succeeds with `n`
member addresses, of which the failing ones are pairwise distinct: for every
completion order, the call returns and the number of returned resources plus
the number of failure entries is `n`. -/
theorem C7_counts_add_up (J : JSON) (lister : Lister) (c : Client) (link : String)
    (s : Schedule) (hlink : link ≠ "") (hlist : (lister c link).err = none)
    (hr : ((lister c link).members.filter
      (fun m => (GetRouteSetEntry J c m).2.isSome)).Nodup)
    (hs : ((lister c link).members.filter
      (fun m => (GetSignature J c m).2.isSome)).Nodup) :
    (ListReferencedRouteSetEntrys J lister c link s).Returns
        (CountsAddUp (lister c link).members) ∧
      (ListReferencedSignatures J lister c link s).Returns
        (CountsAddUp (lister c link).members) := by
  have h1 : concurrentWrites (lister c link).err
      (received (GetRouteSetEntry J c) (lister c link) s) s.overlap = false := by
    rw [hlist]; exact concurrentWrites_none _ _
  have h2 : concurrentWrites (lister c link).err
      (received (GetSignature J c) (lister c link) s) s.overlap = false := by
    rw [hlist]; exact concurrentWrites_none _ _
  rw [listReferencedRouteSetEntrys_eq J lister c link s hlink,
    listReferencedSignatures_eq J lister c link s hlink,
    resolveCollection_returned _ _ link s h1, resolveCollection_returned _ _ link s h2]
  exact ⟨⟨_, rfl, resolve_countsAddUp _ _ link s hlist hr⟩,
    ⟨_, rfl, resolve_countsAddUp _ _ link s hlist hs⟩⟩

/-- C7, amended, at the sample collection `/five`: 3 resources and 2 entries for
5 members. -/
theorem C7_counts_add_up_witness :
    (ListReferencedRouteSetEntrys sampleJSON sampleLister sampleClient "/five"
        ⟨[4, 0, 2], true, true⟩).Returns
        (CountsAddUp ["/a", "/bad", "/b", "/empty", "/c"]) ∧
      (ListReferencedSignatures sampleJSON sampleLister sampleClient "/five"
        ⟨[4, 0, 2], true, true⟩).Returns
        (CountsAddUp ["/a", "/bad", "/b", "/empty", "/c"]) :=
  C7_counts_add_up sampleJSON sampleLister sampleClient "/five" ⟨[4, 0, 2], true, true⟩
    (by decide) rfl (by decide) (by decide)

theorem resolve_nilErrorIffNoFailure {α : Type} (G : String → Option α × Option GoError)
    (listing : Listing) (link : String) (s : Schedule) :
    NilErrorIffNoFailure G listing
      (serialFanIn link listing.err (received G listing s) s.listingFirst).2
      (resolved G listing link s) := by
  have hce : (serialFanIn link listing.err (received G listing s) s.listingFirst).2
      = ⟨finalFailures G listing link s⟩ := by
    rw [serialFanIn_eq]; rfl
  have hnil := finalFailures_eq_nil G listing link s
  unfold NilErrorIffNoFailure
  rw [hce, resolve_result, resolve_err]
  refine ⟨?_, hnil, ?_, items_perm G listing s, ?_⟩
  · by_cases h : finalFailures G listing link s = [] <;> simp [h]
  · intro h; simp only at h; simp [h]
  · intro m hm he
    have h : finalFailures G listing link s ≠ [] := fun h => he ((hnil.mp h).2 m hm)
    simp [h]

theorem resolve_fanOutEnd {α : Type} (G : String → Option α × Option GoError)
    (listing : Listing) (link : String) (s : Schedule) :
    FanOutEnd G listing link s (resolveCollection G listing link s) := by
  have hiff := concurrentWrites_iff listing.err (received G listing s) s.overlap
  unfold FanOutEnd
  cases hcw : concurrentWrites listing.err (received G listing s) s.overlap with
  | false =>
    have hfan : fanIn link listing.err (received G listing s) s.listingFirst s.overlap
        = some (serialFanIn link listing.err (received G listing s) s.listingFirst) := by
      simp [fanIn, hcw]
    rw [hfan, resolveCollection_returned G listing link s hcw]
    refine ⟨⟨_, rfl, resolve_nilErrorIffNoFailure G listing link s⟩, fun _ => rfl, ?_⟩
    rw [hcw] at hiff
    constructor
    · intro h; cases h
    · intro h; exact absurd (hiff.mpr h) (by simp)
  | true =>
    have hfan : fanIn link listing.err (received G listing s) s.listingFirst s.overlap
        = none := by
      simp [fanIn, hcw]
    rw [hfan, resolveCollection_fatal G listing link s hcw]
    rw [hcw] at hiff
    refine ⟨rfl, ?_, ?_⟩
    · intro h
      rw [(hiff.mp rfl).1] at h
      cases h
    · exact ⟨fun _ => hiff.mp rfl, fun _ => rfl⟩

/-- C8. Over a non-empty reference, at the end of the fan-out the call returns,
and the returned error is nil exactly when the failure map is empty, which is
exactly when the listing and every member's fetch and decoding succeeded;
otherwise the populated CollectionError is returned, along with the
resources fetched; so one failing member makes the error non-nil. The fan-out
ends unless the goroutine stores a listing error at the same time as the
drain loop stores the error of the last record received. -/
theorem C8_nil_error_iff_no_failure (J : JSON) (lister : Lister) (c : Client) (link : String)
    (s : Schedule) (hlink : link ≠ "") :
    FanOutEnd (GetRouteSetEntry J c) (lister c link) link s
        (ListReferencedRouteSetEntrys J lister c link s) ∧
      FanOutEnd (GetSignature J c) (lister c link) link s
        (ListReferencedSignatures J lister c link s) := by
  rw [listReferencedRouteSetEntrys_eq J lister c link s hlink,
    listReferencedSignatures_eq J lister c link s hlink]
  exact ⟨resolve_fanOutEnd _ _ link s, resolve_fanOutEnd _ _ link s⟩

/-- C8 at the sample collection `/five`, where three members succeed and two
fail. -/
theorem C8_nil_error_iff_no_failure_witness :
    FanOutEnd (GetRouteSetEntry sampleJSON sampleClient)
        (sampleLister sampleClient "/five") "/five" ⟨[2], false, false⟩
        (ListReferencedRouteSetEntrys sampleJSON sampleLister sampleClient "/five"
          ⟨[2], false, false⟩) ∧
      FanOutEnd (GetSignature sampleJSON sampleClient)
        (sampleLister sampleClient "/five") "/five" ⟨[2], false, false⟩
        (ListReferencedSignatures sampleJSON sampleLister sampleClient "/five"
          ⟨[2], false, false⟩) :=
  C8_nil_error_iff_no_failure sampleJSON sampleLister sampleClient "/five"
    ⟨[2], false, false⟩ (by decide)

theorem resolve_listingErrorRecorded {α : Type} (G : String → Option α × Option GoError)
    (listing : Listing) (link : String) (s : Schedule) (e : GoError)
    (herr : listing.err = some e)
    (hne : ∀ m ∈ listing.members, (G m).2 ≠ none → m ≠ link) :
    ListingErrorRecorded G listing.members link e (resolved G listing link s) := by
  have hlink := finalFailures_listing G listing link s e herr hne
  have hnn : finalFailures G listing link s ≠ [] := by
    intro h
    rw [h] at hlink
    simp [Failures.get?] at hlink
  refine ⟨⟨finalFailures G listing link s⟩, ?_, hlink, ?_⟩
  · rw [resolve_err]; simp [hnn]
  · intro m hm e1 he1
    exact finalFailures_member G listing link s m e1 hm he1
      (Or.inr (hne m hm (by rw [he1]; simp)))

/-- When the two stores do not run at the same time and no failing member has
the collection reference as its address, a failed listing is reported as C9
says: the call returns a non-nil error holding the listing error under the
collection reference and every member failure under its member's address. -/
theorem listing_error_recorded_when_serial (J : JSON) (lister : Lister) (c : Client)
    (link : String) (s : Schedule) (e : GoError) (hlink : link ≠ "")
    (herr : (lister c link).err = some e) (hserial : s.overlap = false)
    (hr : ∀ m ∈ (lister c link).members, (GetRouteSetEntry J c m).2 ≠ none → m ≠ link) :
    (ListReferencedRouteSetEntrys J lister c link s).Returns
      (ListingErrorRecorded (GetRouteSetEntry J c) (lister c link).members link e) := by
  have h1 : concurrentWrites (lister c link).err
      (received (GetRouteSetEntry J c) (lister c link) s) s.overlap = false := by
    simp [concurrentWrites, hserial]
  rw [listReferencedRouteSetEntrys_eq J lister c link s hlink,
    resolveCollection_returned _ _ link s h1]
  exact ⟨_, rfl, resolve_listingErrorRecorded _ _ link s e herr hr⟩

/-- One key holds one error: listing the sample collection `/bad` fails after
its member `/bad`, whose fetch fails too; the map ends with the error stored
last under `/bad`. -/
theorem listing_error_key_collision :
    (ListReferencedRouteSetEntrys sampleJSON sampleLister sampleClient "/bad"
        ⟨[], false, false⟩).Returns
        (fun out => out.failures = [("/bad", ⟨"listing"⟩)]) ∧
      (ListReferencedRouteSetEntrys sampleJSON sampleLister sampleClient "/bad"
        ⟨[], true, false⟩).Returns
        (fun out => out.failures = [("/bad", ⟨"timeout"⟩)]) :=
  ⟨⟨_, rfl, rfl⟩, ⟨_, rfl, rfl⟩⟩

/-- C9, evaluated. Listing the sample collection `/broken` fails after its members
`/a` and `/worse`; the fetch of `/worse` fails and its record is received last.
When the goroutine's store of the listing error and the drain loop's store of
that record's error run at the same time, the runtime ends the process and
neither function returns; when they run one after the other, both errors are
returned as the claim says. -/
theorem C9_concurrent_map_writes :
    (sampleLister sampleClient "/broken").err = some ⟨"listing"⟩ ∧
      (GetRouteSetEntry sampleJSON sampleClient "/worse").2 = some ⟨"refused"⟩ ∧
      (GetSignature sampleJSON sampleClient "/worse").2 = some ⟨"refused"⟩ ∧
      ListReferencedRouteSetEntrys sampleJSON sampleLister sampleClient "/broken"
          ⟨[], false, true⟩ = Run.fatal ∧
      ListReferencedSignatures sampleJSON sampleLister sampleClient "/broken"
          ⟨[], false, true⟩ = Run.fatal ∧
      (ListReferencedRouteSetEntrys sampleJSON sampleLister sampleClient "/broken"
          ⟨[], false, false⟩).Returns
        (fun out => out.failures = [("/broken", ⟨"listing"⟩), ("/worse", ⟨"refused"⟩)]) ∧
      (ListReferencedRouteSetEntrys sampleJSON sampleLister sampleClient "/broken"
          ⟨[], true, false⟩).Returns
        (fun out => out.failures = [("/worse", ⟨"refused"⟩), ("/broken", ⟨"listing"⟩)]) :=
  ⟨rfl, rfl, rfl, rfl, rfl, ⟨_, rfl, rfl⟩, ⟨_, rfl, rfl⟩⟩
end Redfish
